import Mathlib

/-!
# POSIX translation layer of hashfs-strata (`libfs/src/posix/posix_interface.c`)

A shallow embedding of the system-call handlers of `posix_interface.c`.

* The handlers are sequential functions from the process-wide state (the
  working-directory string `pwd` and the descriptor table `g_fd_table`) to a
  `Result`: how the call ended, the state afterwards, and the list of calls
  made into the Inode Handle Layer and the Log Transaction Manager, in program
  order.
* The Inode Handle Layer, the log and the file layer are not part of
  `posix_interface.c`; their functions are fields of `Env` and every theorem
  quantifies over them.
* Machine integers are `Nat`/`Int` with explicit wrap-around at 64 (or 32) bits.
* `pthread_rwlock_*` calls are not modelled: the embedding is single-threaded.
-/

namespace PosixInterface

/-! ## Constants of the system headers (Linux) -/

def ENOENT : Int := 2
def EBADF : Int := 9
def ENOMEM : Int := 12
def EACCES : Int := 13
def EEXIST : Int := 17
def ENOTDIR : Int := 20
def EINVAL : Int := 22

def SEEK_SET : Int := 0
def SEEK_CUR : Int := 1
def SEEK_END : Int := 2

def F_OK : Int := 0

def O_RDONLY : Nat := 0
def O_WRONLY : Nat := 1
def O_RDWR : Nat := 2
def O_CREAT : Nat := 64
def O_EXCL : Nat := 128
def O_DIRECTORY : Nat := 65536

/-! ## Machine integers -/

/-- Conversion of an integer to an unsigned 64-bit object (`uint64_t`, `size_t`). -/
def wrap64 (x : Int) : Nat := (x % 2 ^ 64).toNat

/-- Conversion of an unsigned 64-bit object to a signed one (`off_t`, `ssize_t`). -/
def toInt64 (w : Nat) : Int := if w < 2 ^ 63 then (w : Int) else (w : Int) - 2 ^ 64

/-- Conversion of an integer to `int` (32 bits, two's complement). -/
def toInt32 (x : Int) : Int :=
  if x % 2 ^ 32 < 2 ^ 31 then x % 2 ^ 32 else x % 2 ^ 32 - 2 ^ 32

/-! ## Data model -/

/-- Modelled from the spec: the type tag of an inode handle, "a type tag
{file, directory}"; the header that defines `T_FILE` and `T_DIR` is not part
of the sources. -/
inductive Itype where
  | T_DIR
  | T_FILE
  deriving DecidableEq, Repr

/-- The fields of `struct inode` that `posix_interface.c` reads. -/
structure Inode where
  itype : Itype
  size : Nat
  inum : Nat
  dev : Nat
  deriving DecidableEq, Repr

/-- The tag `type` of `struct file`. -/
inductive FdType where
  | FD_NONE
  | FD_INODE
  | FD_DIR
  deriving DecidableEq, Repr

/-- The fields of `struct file` (the lock apart). `ip` is a `struct inode *`
(`none` is `NULL`); `off` is the 64-bit pattern of the offset field. -/
structure File where
  type : FdType
  fd : Nat
  ref : Int
  readable : Bool
  writable : Bool
  ip : Option Nat
  off : Nat
  deriving DecidableEq, Repr

/-- A C string without its terminator. -/
abbrev CStr := List Char

/-- Calls that leave `posix_interface.c`, with what they returned where the
handler looks at it. -/
inductive Event where
  | start_log_tx
  | commit_log_tx
  | abort_log_tx
  | namei (path : CStr) (res : Option Nat)
  | nameiparent (path : CStr) (res : Option Nat)
  | dir_lookup (dir : Nat) (name : CStr) (res : Option Nat)
  | mlfs_object_create (path : CStr) (t : Itype) (res : Option Nat)
  | iput (ip : Nat)
  | irdlock (ip : Nat)
  | iunlock (ip : Nat)
  | stati (ip : Nat)
  | itrunc (ip : Nat) (length : Int)
  | idealloc (ip : Nat)
  | add_to_loghdr (ip : Nat)
  | dir_remove_entry (dir : Nat) (name : CStr) (inum : Nat)
  | dir_change_entry (dir : Nat) (oldname newname : CStr)
  | dlookup_del (dev : Nat) (path : CStr)
  | mlfs_file_alloc (res : Option Nat)
  | mlfs_file_read (fd : Nat) (count : Nat)
  | mlfs_file_read_offset (fd : Nat) (count : Nat) (off : Nat)
  | mlfs_file_write (fd : Nat) (off : Nat) (count : Nat)
  deriving DecidableEq, Repr

/-- What `posix_interface.c` uses and does not define: constants, the memory
of inode structures, and the functions of the inode, directory, file and log
layers. Pointers to inodes are numbers; `inodes p` is the structure at `p`. -/
structure Env where
  MAX_PATH : Nat
  DIRSIZ : Nat
  g_fd_start : Nat
  inodes : Nat → Inode
  namei : CStr → Option Nat
  nameiparent : CStr → Option (Nat × CStr)
  dir_lookup : Nat → CStr → Option Nat
  mlfs_object_create : CStr → Itype → Option (Nat × Bool)
  dir_remove_entry : Nat → CStr → Nat → Int
  dir_change_entry : Nat → CStr → CStr → Int
  idealloc : Nat → Int
  mlfs_file_read : File → Nat → Int × File
  mlfs_file_read_offset : File → Nat → Nat → Int × File
  mlfs_file_write : File → Nat → Nat → Int × File

/-- The process-wide state owned by the layer: the working directory `pwd`
and `g_fd_table.open_files`. -/
structure State where
  pwd : CStr
  open_files : List File
  deriving DecidableEq, Repr

/-- How a call ends. `panicked`: the handler reached `panic(...)` or a failed
`mlfs_assert`. Modelled from the spec: a contract violation "is treated as
fatal/unrecoverable — the process is expected to terminate rather than return
an error code"; the macro `panic` itself is not part of the sources.
`undefined`: the C code has no defined behaviour (index outside the table,
`NULL` dereference, string without terminator). -/
inductive Outcome where
  | ret (v : Int)
  | panicked
  | undefined
  deriving DecidableEq, Repr

/-- Result of a handler: outcome, state afterwards, calls made. -/
structure Result where
  out : Outcome
  st : State
  trace : List Event
  deriving DecidableEq, Repr

/-! ## Descriptor table -/

/-- The object `&g_fd_table.open_files[fd]`. -/
def get_file (st : State) (fd : Int) : Option File :=
  if fd < 0 then none else st.open_files[fd.toNat]?

/-- Store through the pointer `f = &g_fd_table.open_files[fd]`. -/
def set_file (st : State) (fd : Int) (f : File) : State :=
  { st with open_files := st.open_files.set fd.toNat f }

/-- Index of the first slot whose reference count is 0. -/
def first_free : List File → Option Nat
  | [] => none
  | f :: fs => if f.ref = 0 then some 0 else (first_free fs).map (· + 1)

/-- Modelled from the spec: `mlfs_file_alloc` (file layer, not part of the
sources) "finds a free slot (reference count 0), returns a File Object
initialized with reference count 1; fails with ResourceExhausted if no slot is
free"; the slot's `fd` is its index in the table ("maps a small integer ... to
a File Object slot"). Returns the index of the slot and the table afterwards. -/
def mlfs_file_alloc (st : State) : Option (Nat × State) :=
  match first_free st.open_files with
  | none => none
  | some i =>
    match st.open_files[i]? with
    | none => none
    | some f =>
      some (i, { st with open_files := st.open_files.set i { f with ref := 1, fd := i } })

/-! ## C strings -/

/-- Code of `strncat(dst, src, n)`: `dst` followed by at most `n` characters of `src`. -/
def strncat (dst src : CStr) (n : Nat) : CStr := dst ++ src.take n

/-- Modelled from the spec: `strncpy(pwd, src, n)` into the working-directory
buffer, "replace the working-directory state with the given path (truncating/
overwriting, bounded by the maximum path length)"; the declaration of `pwd` is
not part of the sources. -/
def strncpy (src : CStr) (n : Nat) : CStr := src.take n

/-- The `size_t` value of `MAX_PATH - len`. -/
def size_sub (a b : Nat) : Nat := wrap64 ((a : Int) - (b : Int))

/-! ## Handlers on descriptors -/

/-- Code of `mlfs_posix_read`. -/
def mlfs_posix_read (env : Env) (st : State) (fd : Int) (_buf : Nat) (count : Nat) : Result :=
  match get_file st fd with
  | none => ⟨.undefined, st, []⟩
  | some f =>
    if f.ref = 0 then
      ⟨.panicked, st, []⟩
    else
      let r := env.mlfs_file_read f count
      ⟨.ret r.1, set_file st fd r.2, [.mlfs_file_read fd.toNat count]⟩

/-- Code of `mlfs_posix_pread64`. -/
def mlfs_posix_pread64 (env : Env) (st : State) (fd : Int) (_buf : Nat) (count : Nat)
    (off : Int) : Result :=
  match get_file st fd with
  | none => ⟨.undefined, st, []⟩
  | some f =>
    if f.ref = 0 then
      ⟨.panicked, st, []⟩
    else
      let r := env.mlfs_file_read_offset f count (wrap64 off)
      ⟨.ret r.1, set_file st fd r.2, [.mlfs_file_read_offset fd.toNat count (wrap64 off)]⟩

/-- Code of `mlfs_posix_write`. -/
def mlfs_posix_write (env : Env) (st : State) (fd : Int) (_buf : Nat) (count : Nat) : Result :=
  match get_file st fd with
  | none => ⟨.undefined, st, []⟩
  | some f =>
    if f.ref = 0 then
      ⟨.panicked, st, []⟩
    else
      let r := env.mlfs_file_write f f.off count
      let f1 := r.2
      let f2 := if r.1 > 0 then { f1 with off := wrap64 ((f1.off : Int) + r.1) } else f1
      ⟨.ret r.1, set_file st fd f2, [.mlfs_file_write fd.toNat f.off count]⟩

/-- Code of `mlfs_posix_pwrite64`; `ret` is declared `int` there. -/
def mlfs_posix_pwrite64 (env : Env) (st : State) (fd : Int) (_buf : Nat) (count : Nat)
    (off : Int) : Result :=
  match get_file st fd with
  | none => ⟨.undefined, st, []⟩
  | some f =>
    if f.ref = 0 then
      ⟨.panicked, st, []⟩
    else
      let r := env.mlfs_file_write f (wrap64 off) count
      ⟨.ret (toInt32 r.1), set_file st fd r.2, [.mlfs_file_write fd.toNat (wrap64 off) count]⟩

/-- Code of `mlfs_posix_lseek`. -/
def mlfs_posix_lseek (env : Env) (st : State) (fd : Int) (offset : Int) (origin : Int) : Result :=
  match get_file st fd with
  | none => ⟨.undefined, st, []⟩
  | some f =>
    if f.ref = 0 then
      ⟨.ret (-EBADF), st, []⟩
    else if origin = SEEK_SET then
      let f1 := { f with off := wrap64 offset }
      ⟨.ret (toInt64 f1.off), set_file st fd f1, []⟩
    else if origin = SEEK_CUR then
      let f1 := { f with off := wrap64 ((f.off : Int) + offset) }
      ⟨.ret (toInt64 f1.off), set_file st fd f1, []⟩
    else if origin = SEEK_END then
      match f.ip with
      | none => ⟨.undefined, st, []⟩
      | some ip =>
        let f1 := { f with off := wrap64 (((env.inodes ip).size : Int) + offset) }
        ⟨.ret (toInt64 f1.off), set_file st fd f1, [.irdlock ip, .iunlock ip]⟩
    else
      ⟨.ret (-EINVAL), st, []⟩

/-! ## Handlers on paths -/

/-- Code of `mlfs_posix_chdir`. `none` is a `NULL` pathname. The buffer `pwd`
is changed in place: `strncat` appends, `pwd[len] = 0` cuts it back. -/
def mlfs_posix_chdir (env : Env) (st : State) (pathname : Option CStr) : Result :=
  match pathname with
  | none => ⟨.ret (-ENOENT), st, []⟩
  | some p =>
    if p.head? = some '/' then
      match env.namei p with
      | none => ⟨.ret (-ENOENT), st, [.namei p none]⟩
      | some inode =>
        if (env.inodes inode).itype = Itype.T_FILE then
          ⟨.ret (-ENOTDIR), st, [.namei p (some inode)]⟩
        else
          ⟨.ret 0, { st with pwd := strncpy p env.MAX_PATH }, [.namei p (some inode)]⟩
    else
      let len := st.pwd.length
      let pwd1 := strncat st.pwd p (size_sub env.MAX_PATH len)
      match env.namei pwd1 with
      | none => ⟨.ret (-ENOENT), { st with pwd := pwd1.take len }, [.namei pwd1 none]⟩
      | some inode =>
        if (env.inodes inode).itype = Itype.T_FILE then
          ⟨.ret (-ENOTDIR), { st with pwd := pwd1.take len }, [.namei pwd1 (some inode)]⟩
        else
          ⟨.ret 0, { st with pwd := pwd1 }, [.namei pwd1 (some inode)]⟩

/-- Lines 87-99 of `mlfs_posix_open`: the string `path` points to. For a
relative path, `strncpy(fullpath, pwd, MAX_PATH)` fills the local array
`fullpath[MAX_PATH + 1]`; it writes a terminator only when `pwd` is shorter
than `MAX_PATH`, and otherwise `strlen(fullpath)` reads a byte that was never
written (`none`). -/
def open_path (env : Env) (pwd : CStr) (input_path : CStr) : Option CStr :=
  if input_path.head? ≠ some '/' then
    if pwd.length < env.MAX_PATH then
      some (strncat pwd input_path (size_sub env.MAX_PATH pwd.length))
    else
      none
  else
    some input_path

/-- Lines 143-181 of `mlfs_posix_open`: allocation of the file object, commit,
and the fields of the file object. `tr` is the calls made so far. -/
def open_tail (env : Env) (st : State) (inode : Nat) (flags : Nat) (tr : List Event) : Result :=
  match mlfs_file_alloc st with
  | none =>
    ⟨.ret (-ENOMEM), st, tr ++ [.mlfs_file_alloc none, .iput inode, .abort_log_tx]⟩
  | some (i, st1) =>
    match st1.open_files[i]? with
    | none => ⟨.undefined, st1, tr ++ [.mlfs_file_alloc (some i)]⟩
    | some f =>
      let fd := f.fd
      let f1 : File :=
        { f with
          type := if flags &&& O_DIRECTORY ≠ 0 then FdType.FD_DIR else FdType.FD_INODE
          ip := some inode
          readable := decide (flags &&& O_WRONLY = 0)
          writable := decide (flags &&& O_WRONLY ≠ 0) || decide (flags &&& O_RDWR ≠ 0)
          off := 0 }
      ⟨.ret ((fd : Int) + (env.g_fd_start : Int)),
        { st1 with open_files := st1.open_files.set i f1 },
        tr ++ [.mlfs_file_alloc (some i), .commit_log_tx]⟩

/-- Code of `mlfs_posix_open`. `none` is a `NULL` path; `flags` is the bit
pattern of the `int`. The `mlfs_debug` printing calls are left out. -/
def mlfs_posix_open (env : Env) (st : State) (input_path : Option CStr) (flags : Nat)
    (_mode : Nat) : Result :=
  match input_path with
  | none => ⟨.ret (-ENOENT), st, []⟩
  | some ipath =>
    match open_path env st.pwd ipath with
    | none => ⟨.undefined, st, []⟩
    | some path =>
      if flags &&& O_CREAT ≠ 0 then
        if flags &&& O_DIRECTORY ≠ 0 then
          ⟨.panicked, st, [.start_log_tx]⟩
        else
          match env.mlfs_object_create path Itype.T_FILE with
          | none =>
            ⟨.ret (-ENOENT), st,
              [.start_log_tx, .mlfs_object_create path Itype.T_FILE none, .abort_log_tx]⟩
          | some (inode, exist) =>
            if flags &&& O_EXCL ≠ 0 ∧ exist = true then
              ⟨.ret (-EEXIST), st,
                [.start_log_tx, .mlfs_object_create path Itype.T_FILE (some inode),
                  .abort_log_tx]⟩
            else
              open_tail env st inode flags
                [.start_log_tx, .mlfs_object_create path Itype.T_FILE (some inode)]
      else
        match env.namei path with
        | none => ⟨.ret (-ENOENT), st, [.start_log_tx, .namei path none, .abort_log_tx]⟩
        | some inode =>
          if (env.inodes inode).itype = Itype.T_DIR then
            let flags1 := flags ||| (O_RDONLY ||| O_DIRECTORY)
            if flags1 = 0 then
              ⟨.ret (-EACCES), st,
                [.start_log_tx, .namei path (some inode), .abort_log_tx]⟩
            else
              open_tail env st inode flags1 [.start_log_tx, .namei path (some inode)]
          else
            open_tail env st inode flags [.start_log_tx, .namei path (some inode)]

/-- Code of `mlfs_posix_creat`. -/
def mlfs_posix_creat (env : Env) (st : State) (path : Option CStr) (mode : Nat) : Result :=
  mlfs_posix_open env st path (O_CREAT ||| O_RDWR) mode

/-- Code of `mlfs_posix_access`. -/
def mlfs_posix_access (env : Env) (st : State) (pathname : CStr) (mode : Int) : Result :=
  if mode ≠ F_OK then
    ⟨.panicked, st, []⟩
  else
    match env.namei pathname with
    | none => ⟨.ret (-ENOENT), st, [.namei pathname none]⟩
    | some inode => ⟨.ret 0, st, [.namei pathname (some inode), .iput inode]⟩

/-- Code of `mlfs_posix_mkdir`. -/
def mlfs_posix_mkdir (env : Env) (st : State) (path : CStr) (_mode : Nat) : Result :=
  match env.mlfs_object_create path Itype.T_DIR with
  | none =>
    ⟨.ret (-ENOENT), st,
      [.start_log_tx, .mlfs_object_create path Itype.T_DIR none, .abort_log_tx]⟩
  | some (inode, exist) =>
    if exist = true then
      ⟨.ret (-EEXIST), st,
        [.start_log_tx, .mlfs_object_create path Itype.T_DIR (some inode), .commit_log_tx]⟩
    else
      ⟨.ret 0, st,
        [.start_log_tx, .mlfs_object_create path Itype.T_DIR (some inode), .commit_log_tx]⟩

/-- Code of `mlfs_posix_stat`. -/
def mlfs_posix_stat (env : Env) (st : State) (filename : CStr) : Result :=
  match env.namei filename with
  | none => ⟨.ret (-ENOENT), st, [.namei filename none]⟩
  | some inode => ⟨.ret 0, st, [.namei filename (some inode), .stati inode]⟩

/-- Code of `mlfs_posix_unlink`. -/
def mlfs_posix_unlink (env : Env) (st : State) (filename : CStr) : Result :=
  match env.nameiparent filename with
  | none => ⟨.ret (-ENOENT), st, [.nameiparent filename none]⟩
  | some (dir_inode, name) =>
    match env.dir_lookup dir_inode name with
    | none =>
      ⟨.ret (-ENOENT), st,
        [.nameiparent filename (some dir_inode), .dir_lookup dir_inode name none]⟩
    | some inode =>
      let ret := env.dir_remove_entry dir_inode name (env.inodes inode).inum
      if ret < 0 then
        ⟨.ret ret, st,
          [.nameiparent filename (some dir_inode), .dir_lookup dir_inode name (some inode),
            .start_log_tx, .dir_remove_entry dir_inode name (env.inodes inode).inum,
            .abort_log_tx]⟩
      else
        ⟨.ret (env.idealloc inode), st,
          [.nameiparent filename (some dir_inode), .dir_lookup dir_inode name (some inode),
            .start_log_tx, .dir_remove_entry dir_inode name (env.inodes inode).inum,
            .dlookup_del (env.inodes inode).dev filename,
            .iput dir_inode, .iput inode, .idealloc inode, .add_to_loghdr inode,
            .commit_log_tx]⟩

/-- Code of `mlfs_posix_rmdir`. -/
def mlfs_posix_rmdir (env : Env) (st : State) (path : CStr) : Result :=
  mlfs_posix_unlink env st path

/-- Code of `mlfs_posix_truncate`. -/
def mlfs_posix_truncate (env : Env) (st : State) (filename : CStr) (length : Int) : Result :=
  match env.namei filename with
  | none => ⟨.ret (-ENOENT), st, [.namei filename none]⟩
  | some inode =>
    ⟨.ret 0, st,
      [.namei filename (some inode), .start_log_tx, .itrunc inode length, .commit_log_tx,
        .iput inode]⟩

/-- Code of `mlfs_posix_ftruncate`. -/
def mlfs_posix_ftruncate (_env : Env) (st : State) (fd : Int) (length : Int) : Result :=
  match get_file st fd with
  | none => ⟨.undefined, st, []⟩
  | some f =>
    if f.ref = 0 then
      ⟨.ret (-EBADF), st, []⟩
    else
      match f.ip with
      | none => ⟨.undefined, st, [.start_log_tx]⟩
      | some ip => ⟨.ret 0, st, [.start_log_tx, .itrunc ip length, .commit_log_tx]⟩

/-- Code of `mlfs_posix_rename`. A failed `mlfs_assert` ends the call like `panic`. -/
def mlfs_posix_rename (env : Env) (st : State) (oldpath newpath : CStr) : Result :=
  let o := env.nameiparent oldpath
  let n := env.nameiparent newpath
  let tr0 : List Event :=
    [.nameiparent oldpath (o.map Prod.fst), .nameiparent newpath (n.map Prod.fst)]
  match o, n with
  | some (old_dir_inode, old_file_name), some (new_dir_inode, new_file_name) =>
    if old_dir_inode ≠ new_dir_inode then
      ⟨.panicked, st, tr0⟩
    else if ¬ (old_file_name.length ≤ env.DIRSIZ ∧ new_file_name.length ≤ env.DIRSIZ) then
      ⟨.panicked, st, tr0 ++ [.start_log_tx]⟩
    else
      let dev := (env.inodes old_dir_inode).dev
      let ret := env.dir_change_entry old_dir_inode old_file_name new_file_name
      if ret < 0 then
        ⟨.ret ret, st,
          tr0 ++ [.start_log_tx, .dlookup_del dev newpath,
            .dir_change_entry old_dir_inode old_file_name new_file_name,
            .abort_log_tx, .iput old_dir_inode, .iput new_dir_inode,
            .dlookup_del dev oldpath]⟩
      else
        ⟨.ret 0, st,
          tr0 ++ [.start_log_tx, .dlookup_del dev newpath,
            .dir_change_entry old_dir_inode old_file_name new_file_name,
            .dlookup_del dev oldpath, .iput old_dir_inode, .iput new_dir_inode,
            .commit_log_tx]⟩
  | _, _ => ⟨.panicked, st, tr0⟩

/-! ## Observations on a trace -/

/-- Net change of the reference count of the inode at `p` along a trace: +1
for each `namei`, `nameiparent`, `dir_lookup` and `mlfs_object_create` that
returned `p`, -1 for each `iput(p)`. -/
def refDelta (p : Nat) : List Event → Int
  | [] => 0
  | .namei _ (some q) :: tr => (if q = p then 1 else 0) + refDelta p tr
  | .nameiparent _ (some q) :: tr => (if q = p then 1 else 0) + refDelta p tr
  | .dir_lookup _ _ (some q) :: tr => (if q = p then 1 else 0) + refDelta p tr
  | .mlfs_object_create _ _ (some q) :: tr => (if q = p then 1 else 0) + refDelta p tr
  | .iput q :: tr => (if q = p then -1 else 0) + refDelta p tr
  | _ :: tr => refDelta p tr

/-- The calls to the Log Transaction Manager in a trace, in order. -/
def logCalls (tr : List Event) : List Event :=
  tr.filter fun e => decide (e = .start_log_tx ∨ e = .commit_log_tx ∨ e = .abort_log_tx)

/-- The strings handed to the path-taking functions of the Inode Handle Layer
(`namei`, `nameiparent`, `mlfs_object_create`), in order. -/
def resolvedPaths : List Event → List CStr
  | [] => []
  | .namei p _ :: tr => p :: resolvedPaths tr
  | .nameiparent p _ :: tr => p :: resolvedPaths tr
  | .mlfs_object_create p _ _ :: tr => p :: resolvedPaths tr
  | _ :: tr => resolvedPaths tr

/-! ## Properties of a call -/

/-- The call `r` on descriptor `fd` (file object `f` before the call) stored the
64-bit value of the integer `x` in the offset field and returned it; when `x`
fits the signed return type the returned number is `x` itself, and when `x`
fits the unsigned field the stored number is `x` itself. -/
def SeeksTo (r : Result) (fd : Int) (f : File) (x : Int) : Prop :=
  get_file r.st fd = some { f with off := wrap64 x } ∧
  r.out = .ret (toInt64 (wrap64 x)) ∧
  (-2 ^ 63 ≤ x → x < 2 ^ 63 → r.out = .ret x) ∧
  (0 ≤ x → x < 2 ^ 64 → ((wrap64 x : Nat) : Int) = x)

/-- The string `mlfs_posix_chdir` gives to `namei`: an absolute path as it is;
for a relative path the working directory followed by the first
`MAX_PATH - len` characters of the path. -/
def chdir_target (env : Env) (pwd p : CStr) : CStr :=
  if p.head? = some '/' then p else pwd ++ p.take (env.MAX_PATH - pwd.length)

/-- A call that returned a negative value after `start_log_tx` made exactly the
log calls `start_log_tx`, `abort_log_tx`: the transaction was ended by abort
and never committed. -/
def AbortsOnError (r : Result) : Prop :=
  ∀ v, r.out = .ret v → v < 0 → Event.start_log_tx ∈ r.trace →
    logCalls r.trace = [.start_log_tx, .abort_log_tx]

/-! ## Sample inputs -/

/-- A small environment: `/a/` (inode 1) is a directory, `/a/b` (inode 2) and
`/f` (inode 3) are files of size 10, nothing else resolves; every entry that
resolves pre-exists for `mlfs_object_create`; the directory functions and
`idealloc` succeed; the file functions transfer `count` bytes and leave the
file object alone. -/
def sampleEnv : Env where
  MAX_PATH := 8
  DIRSIZ := 4
  g_fd_start := 1000
  inodes := fun p => if p = 1 then ⟨Itype.T_DIR, 0, 1, 0⟩ else ⟨Itype.T_FILE, 10, p, 0⟩
  namei := fun p =>
    if p = ['/', 'a', '/'] then some 1
    else if p = ['/', 'a', '/', 'b'] then some 2
    else if p = ['/', 'f'] then some 3
    else none
  nameiparent := fun p =>
    if p = ['/', 'a', '/', 'b'] then some (1, ['b'])
    else if p = ['/', 'a', '/', 'c'] then some (1, ['c'])
    else none
  dir_lookup := fun d n => if d = 1 ∧ n = ['b'] then some 2 else none
  mlfs_object_create := fun p _ =>
    if p = ['/', 'a', '/'] then some (1, true)
    else if p = ['/', 'a', '/', 'b'] then some (2, true)
    else if p = ['/', 'f'] then some (3, true)
    else if p = ['/', 'n'] then some (4, false)
    else none
  dir_remove_entry := fun _ _ _ => 0
  dir_change_entry := fun _ _ _ => 0
  idealloc := fun _ => 0
  mlfs_file_read := fun f n => ((n : Int), f)
  mlfs_file_read_offset := fun f n _ => ((n : Int), f)
  mlfs_file_write := fun f _ n => ((n : Int), f)

/-- An open regular file on inode 3 with current offset 5. -/
def sampleFile : File :=
  { type := FdType.FD_INODE, fd := 0, ref := 1, readable := true, writable := true,
    ip := some 3, off := 5 }

/-- A free slot of the descriptor table. -/
def freeFile : File :=
  { type := FdType.FD_NONE, fd := 1, ref := 0, readable := false, writable := false,
    ip := none, off := 0 }

/-- Working directory `/a/`, slot 0 open, slot 1 free. -/
def sampleState : State := { pwd := ['/', 'a', '/'], open_files := [sampleFile, freeFile] }

/-! ## Lemmas on machine integers and the descriptor table -/

theorem wrap64_lt (x : Int) : wrap64 x < 2 ^ 64 := by
  unfold wrap64
  have h1 : 0 ≤ x % 2 ^ 64 := Int.emod_nonneg _ (by norm_num)
  have h2 : x % 2 ^ 64 < 2 ^ 64 := Int.emod_lt_of_pos _ (by norm_num)
  omega

theorem wrap64_cast (x : Int) : ((wrap64 x : Nat) : Int) = x % 2 ^ 64 := by
  unfold wrap64
  exact Int.toNat_of_nonneg (Int.emod_nonneg _ (by norm_num))

theorem wrap64_exact (x : Int) (h0 : 0 ≤ x) (h1 : x < 2 ^ 64) : ((wrap64 x : Nat) : Int) = x := by
  rw [wrap64_cast]
  exact Int.emod_eq_of_lt h0 h1

theorem toInt64_wrap64 (x : Int) (h0 : -2 ^ 63 ≤ x) (h1 : x < 2 ^ 63) :
    toInt64 (wrap64 x) = x := by
  unfold toInt64
  have hc := wrap64_cast x
  have hm : x % 2 ^ 64 = if 0 ≤ x then x else x + 2 ^ 64 := by
    split_ifs with h
    · exact Int.emod_eq_of_lt h (by omega)
    · have : (x + 2 ^ 64) % 2 ^ 64 = x + 2 ^ 64 := Int.emod_eq_of_lt (by omega) (by omega)
      rw [← this]
      simp
  split_ifs with h <;> split_ifs at hm <;> omega

theorem get_set_file (st : State) (fd : Int) (f g : File) (hf : get_file st fd = some f) :
    get_file (set_file st fd g) fd = some g := by
  unfold get_file at hf ⊢
  unfold set_file
  split_ifs at hf ⊢ with h
  have hlt : fd.toNat < st.open_files.length := by
    rcases List.getElem?_eq_some_iff.mp hf with ⟨hl, _⟩
    exact hl
  simp [hlt]

/-! ## Seeking -/

theorem seeksTo_intro (r : Result) (fd : Int) (f : File) (x : Int)
    (h1 : get_file r.st fd = some { f with off := wrap64 x })
    (h2 : r.out = .ret (toInt64 (wrap64 x))) : SeeksTo r fd f x := by
  refine ⟨h1, h2, ?_, ?_⟩
  · intro a b
    rw [h2, toInt64_wrap64 x a b]
  · intro a b
    exact wrap64_exact x a b

/-- C1: `mlfs_posix_lseek` on a descriptor whose slot has reference count > 0.
With `SEEK_SET` the offset becomes the argument `D` and `D` is returned; with
`SEEK_CUR` it becomes old offset + `D`; with `SEEK_END` it becomes the size of
the file object's inode + `D`; offset and return value are the 64-bit value of
the sum (the sum itself whenever it is representable). For every other
`whence` the call returns `-EINVAL` and the state, so the offset of the file
object, is what it was. -/
theorem lseek_contract (env : Env) (st : State) (fd : Int) (f : File) (D origin : Int)
    (hf : get_file st fd = some f) (href : 0 < f.ref) :
    (origin = SEEK_SET → SeeksTo (mlfs_posix_lseek env st fd D origin) fd f D) ∧
    (origin = SEEK_CUR →
      SeeksTo (mlfs_posix_lseek env st fd D origin) fd f ((f.off : Int) + D)) ∧
    (origin = SEEK_END → ∀ ip, f.ip = some ip →
      SeeksTo (mlfs_posix_lseek env st fd D origin) fd f (((env.inodes ip).size : Int) + D)) ∧
    (origin ≠ SEEK_SET → origin ≠ SEEK_CUR → origin ≠ SEEK_END →
      (mlfs_posix_lseek env st fd D origin).out = .ret (-EINVAL) ∧
      (mlfs_posix_lseek env st fd D origin).st = st ∧
      get_file (mlfs_posix_lseek env st fd D origin).st fd = some f) := by
  have hne : f.ref ≠ 0 := by omega
  refine ⟨?_, ?_, ?_, ?_⟩
  · intro ho
    subst ho
    apply seeksTo_intro
    · simp only [mlfs_posix_lseek, hf, hne, if_false, if_true]
      exact get_set_file st fd f _ hf
    · simp only [mlfs_posix_lseek, hf, hne, if_false, if_true]
  · intro ho
    subst ho
    have h01 : ¬ (SEEK_CUR = SEEK_SET) := by decide
    apply seeksTo_intro
    · simp only [mlfs_posix_lseek, hf, hne, h01, if_false, if_true]
      exact get_set_file st fd f _ hf
    · simp only [mlfs_posix_lseek, hf, hne, h01, if_false, if_true]
  · intro ho ip hip
    subst ho
    have h02 : ¬ (SEEK_END = SEEK_SET) := by decide
    have h12 : ¬ (SEEK_END = SEEK_CUR) := by decide
    apply seeksTo_intro
    · simp only [mlfs_posix_lseek, hf, hne, h02, h12, hip, if_false, if_true]
      exact get_set_file st fd f _ hf
    · simp only [mlfs_posix_lseek, hf, hne, h02, h12, hip, if_false, if_true]
  · intro h0 h1 h2
    simp [mlfs_posix_lseek, hf, hne, h0, h1, h2]

/-- Instance of `lseek_contract`: `SEEK_END` with `D = 7` on slot 0 of
`sampleState`, whose inode has size 10, returns 17 and stores 17. -/
theorem lseek_contract_witness :
    get_file sampleState 0 = some sampleFile ∧ 0 < sampleFile.ref ∧
    (mlfs_posix_lseek sampleEnv sampleState 0 7 SEEK_END).out = .ret 17 ∧
    get_file (mlfs_posix_lseek sampleEnv sampleState 0 7 SEEK_END).st 0 =
      some { sampleFile with off := 17 } :=
  have h := (lseek_contract sampleEnv sampleState 0 sampleFile 7 SEEK_END rfl
    (by decide)).2.2.1 rfl 3 rfl
  ⟨rfl, by decide, h.2.2.1 (by decide) (by decide), h.1⟩

/-- C9: `mlfs_posix_lseek` with `SEEK_SET` and offset argument -9 on the open
slot 0 of `sampleState` stores the offset (bit pattern 2^64 - 9) and returns
-9, the value `-EBADF`: a negative return value that the handler did not
decide to report and that stands for a stored offset. -/
theorem lseek_negative_return_stores_offset :
    get_file sampleState 0 = some sampleFile ∧ 0 < sampleFile.ref ∧
    (mlfs_posix_lseek sampleEnv sampleState 0 (-9) SEEK_SET).out = .ret (-EBADF) ∧
    get_file (mlfs_posix_lseek sampleEnv sampleState 0 (-9) SEEK_SET).st 0 =
      some { sampleFile with off := 2 ^ 64 - 9 } := by
  refine ⟨rfl, by decide, ?_, ?_⟩ <;> decide

/-! ## Reading and writing -/

/-- C4: on a descriptor whose slot has reference count > 0, with a write
primitive that leaves the offset field alone: `mlfs_posix_write` calls the
primitive once, at the current offset, returns its result `r`, and leaves the
offset at old offset + `r` (64-bit) when `r > 0` and unchanged otherwise;
`mlfs_posix_pwrite64` calls the primitive once, at the offset given by the
caller, and leaves the offset field as it was. -/
theorem write_advances_pwrite_keeps_offset (env : Env) (st : State) (fd : Int) (f : File)
    (buf count : Nat) (off : Int)
    (hf : get_file st fd = some f) (href : 0 < f.ref)
    (hprim : ∀ g o n, (env.mlfs_file_write g o n).2.off = g.off) :
    ((mlfs_posix_write env st fd buf count).out = .ret (env.mlfs_file_write f f.off count).1 ∧
      (mlfs_posix_write env st fd buf count).trace = [.mlfs_file_write fd.toNat f.off count] ∧
      ∃ g, get_file (mlfs_posix_write env st fd buf count).st fd = some g ∧
        g.off = (if (env.mlfs_file_write f f.off count).1 > 0
          then wrap64 ((f.off : Int) + (env.mlfs_file_write f f.off count).1) else f.off) ∧
        (0 < (env.mlfs_file_write f f.off count).1 →
          (f.off : Int) + (env.mlfs_file_write f f.off count).1 < 2 ^ 64 →
          (g.off : Int) = (f.off : Int) + (env.mlfs_file_write f f.off count).1)) ∧
    ((mlfs_posix_pwrite64 env st fd buf count off).trace =
        [.mlfs_file_write fd.toNat (wrap64 off) count] ∧
      ∃ g, get_file (mlfs_posix_pwrite64 env st fd buf count off).st fd = some g ∧
        g.off = f.off) := by
  have hne : f.ref ≠ 0 := by omega
  have hp := hprim f f.off count
  refine ⟨⟨?_, ?_, ?_⟩, ?_, ?_⟩
  · simp [mlfs_posix_write, hf, hne]
  · simp [mlfs_posix_write, hf, hne]
  · by_cases hr : (env.mlfs_file_write f f.off count).1 > 0
    · refine ⟨{ (env.mlfs_file_write f f.off count).2 with
        off := wrap64 ((f.off : Int) + (env.mlfs_file_write f f.off count).1) }, ?_, ?_, ?_⟩
      · simp only [mlfs_posix_write, hf, hne, if_false, hr, if_true, hp]
        exact get_set_file st fd f _ hf
      · simp [hr]
      · intro h0 h1
        exact wrap64_exact _ (by omega) h1
    · refine ⟨(env.mlfs_file_write f f.off count).2, ?_, ?_, ?_⟩
      · simp only [mlfs_posix_write, hf, hne, if_false, hr]
        exact get_set_file st fd f _ hf
      · simp [hr, hp]
      · intro h0
        exact absurd h0 hr
  · simp [mlfs_posix_pwrite64, hf, hne]
  · refine ⟨(env.mlfs_file_write f (wrap64 off) count).2, ?_, hprim f (wrap64 off) count⟩
    simp only [mlfs_posix_pwrite64, hf, hne, if_false]
    exact get_set_file st fd f _ hf

/-- Instance of `write_advances_pwrite_keeps_offset`: slot 0 of `sampleState`
(offset 5), 3 bytes, `pwrite64` at offset 100. -/
theorem write_advances_pwrite_keeps_offset_witness :
    get_file sampleState 0 = some sampleFile ∧ 0 < sampleFile.ref ∧
    (mlfs_posix_write sampleEnv sampleState 0 0 3).out = .ret 3 ∧
    (mlfs_posix_write sampleEnv sampleState 0 0 3).trace = [.mlfs_file_write 0 5 3] ∧
    get_file (mlfs_posix_write sampleEnv sampleState 0 0 3).st 0 =
      some { sampleFile with off := 8 } ∧
    (mlfs_posix_pwrite64 sampleEnv sampleState 0 0 3 100).trace =
      [.mlfs_file_write 0 100 3] ∧
    get_file (mlfs_posix_pwrite64 sampleEnv sampleState 0 0 3 100).st 0 = some sampleFile :=
  have h := write_advances_pwrite_keeps_offset sampleEnv sampleState 0 sampleFile 0 3 100 rfl
    (by decide) (fun _ _ _ => rfl)
  ⟨rfl, by decide, h.1.1, h.1.2.1, by decide, h.2.1, by decide⟩

/-- C5: on a descriptor whose slot has reference count 0, `mlfs_posix_read`,
`mlfs_posix_pread64`, `mlfs_posix_write` and `mlfs_posix_pwrite64` end in
`panic("file descriptor is wrong\n")`: no value, so no `-EBADF`, is returned;
no call to a read or write primitive was made and the state is unchanged. -/
theorem rw_free_slot_panics (env : Env) (st : State) (fd : Int) (f : File)
    (buf count : Nat) (off : Int)
    (hf : get_file st fd = some f) (href : f.ref = 0) :
    mlfs_posix_read env st fd buf count = ⟨.panicked, st, []⟩ ∧
    mlfs_posix_pread64 env st fd buf count off = ⟨.panicked, st, []⟩ ∧
    mlfs_posix_write env st fd buf count = ⟨.panicked, st, []⟩ ∧
    mlfs_posix_pwrite64 env st fd buf count off = ⟨.panicked, st, []⟩ ∧
    (mlfs_posix_read env st fd buf count).out ≠ .ret (-EBADF) := by
  simp [mlfs_posix_read, mlfs_posix_pread64, mlfs_posix_write, mlfs_posix_pwrite64, hf, href]

/-- Instance of `rw_free_slot_panics`: the free slot 1 of `sampleState`. -/
theorem rw_free_slot_panics_witness :
    get_file sampleState 1 = some freeFile ∧ freeFile.ref = 0 ∧
    mlfs_posix_read sampleEnv sampleState 1 0 4 = ⟨.panicked, sampleState, []⟩ ∧
    mlfs_posix_write sampleEnv sampleState 1 0 4 = ⟨.panicked, sampleState, []⟩ :=
  ⟨rfl, rfl, (rw_free_slot_panics sampleEnv sampleState 1 freeFile 0 4 0 rfl rfl).1,
    (rw_free_slot_panics sampleEnv sampleState 1 freeFile 0 4 0 rfl rfl).2.2.1⟩

/-! ## Changing the working directory -/

theorem size_sub_eq (a b : Nat) (hb : b ≤ a) (ha : a < 2 ^ 64) : size_sub a b = a - b := by
  unfold size_sub
  have h := wrap64_exact ((a : Int) - (b : Int)) (by omega) (by omega)
  omega

/-- C3: `mlfs_posix_chdir` on a non-`NULL` path, with a working directory of
length `len ≤ MAX_PATH`. The handler resolves the path itself (absolute) or
the working directory followed by the path, bounded by `MAX_PATH` (relative;
this is the working directory followed by the whole path when the path has at
most `MAX_PATH - len` characters). If that fails to resolve the result is
`-ENOENT`, if it resolves to a non-directory the result is `-ENOTDIR`, and in
both cases the state is what it was. If it resolves to a directory the result
is 0 and the working directory is: for a relative path, the old one followed
by the first `min(|path|, MAX_PATH - len)` characters of the path; for an
absolute path, the first `MAX_PATH` characters of the path. -/
theorem chdir_contract (env : Env) (st : State) (p : CStr)
    (hmax : env.MAX_PATH < 2 ^ 64) (hlen : st.pwd.length ≤ env.MAX_PATH) :
    (∃ res, (mlfs_posix_chdir env st (some p)).trace =
        [.namei (chdir_target env st.pwd p) res]) ∧
    (p.head? ≠ some '/' → p.length ≤ env.MAX_PATH - st.pwd.length →
      chdir_target env st.pwd p = st.pwd ++ p) ∧
    (env.namei (chdir_target env st.pwd p) = none →
      (mlfs_posix_chdir env st (some p)).out = .ret (-ENOENT) ∧
      (mlfs_posix_chdir env st (some p)).st = st) ∧
    (∀ inode, env.namei (chdir_target env st.pwd p) = some inode →
      (env.inodes inode).itype ≠ Itype.T_DIR →
      (mlfs_posix_chdir env st (some p)).out = .ret (-ENOTDIR) ∧
      (mlfs_posix_chdir env st (some p)).st = st) ∧
    (∀ inode, env.namei (chdir_target env st.pwd p) = some inode →
      (env.inodes inode).itype = Itype.T_DIR →
      (mlfs_posix_chdir env st (some p)).out = .ret 0 ∧
      (mlfs_posix_chdir env st (some p)).st.open_files = st.open_files ∧
      (p.head? ≠ some '/' → (mlfs_posix_chdir env st (some p)).st.pwd =
        st.pwd ++ p.take (min p.length (env.MAX_PATH - st.pwd.length))) ∧
      (p.head? = some '/' → (mlfs_posix_chdir env st (some p)).st.pwd =
        p.take env.MAX_PATH)) := by
  have hs : size_sub env.MAX_PATH st.pwd.length = env.MAX_PATH - st.pwd.length :=
    size_sub_eq _ _ hlen hmax
  have hmin : p.take (min p.length (env.MAX_PATH - st.pwd.length)) =
      p.take (env.MAX_PATH - st.pwd.length) := by
    rw [List.take_eq_take]
    simp [Nat.min_comm]
  have hfile : ∀ t : Itype, t ≠ Itype.T_DIR → t = Itype.T_FILE := by
    intro t ht
    cases t
    · exact absurd rfl ht
    · rfl
  by_cases habs : p.head? = some '/'
  · refine ⟨?_, ?_, ?_, ?_, ?_⟩
    · simp only [mlfs_posix_chdir, chdir_target, habs, if_true]
      cases hn : env.namei p with
      | none => exact ⟨none, rfl⟩
      | some inode =>
        by_cases ht : (env.inodes inode).itype = Itype.T_FILE
        · exact ⟨some inode, by simp [ht]⟩
        · exact ⟨some inode, by simp [ht]⟩
    · intro h
      exact absurd habs h
    · intro hn
      simp only [chdir_target, habs, if_true] at hn
      simp [mlfs_posix_chdir, habs, hn]
    · intro inode hn ht
      simp only [chdir_target, habs, if_true] at hn
      simp [mlfs_posix_chdir, habs, hn, hfile _ ht]
    · intro inode hn ht
      simp only [chdir_target, habs, if_true] at hn
      simp [mlfs_posix_chdir, habs, hn, ht, strncpy]
  · refine ⟨?_, ?_, ?_, ?_, ?_⟩
    · simp only [mlfs_posix_chdir, chdir_target, habs, if_false, strncat, hs]
      cases hn : env.namei (st.pwd ++ p.take (env.MAX_PATH - st.pwd.length)) with
      | none => exact ⟨none, rfl⟩
      | some inode =>
        by_cases ht : (env.inodes inode).itype = Itype.T_FILE
        · exact ⟨some inode, by simp [ht]⟩
        · exact ⟨some inode, by simp [ht]⟩
    · intro _ hl
      simp only [chdir_target, habs, if_false]
      rw [List.take_of_length_le hl]
    · intro hn
      simp only [chdir_target, habs, if_false] at hn
      simp [mlfs_posix_chdir, habs, strncat, hs, hn]
    · intro inode hn ht
      simp only [chdir_target, habs, if_false] at hn
      simp [mlfs_posix_chdir, habs, strncat, hs, hn, hfile _ ht]
    · intro inode hn ht
      simp only [chdir_target, habs, if_false] at hn
      simp [mlfs_posix_chdir, habs, strncat, hs, hn, ht, hmin]

/-- Instance of `chdir_contract`: in `sampleState` (working directory `/a/`,
`MAX_PATH = 8`) the relative path `b` resolves to the file `/a/b`: `-ENOTDIR`,
state unchanged. -/
theorem chdir_contract_witness :
    sampleEnv.MAX_PATH < 2 ^ 64 ∧ sampleState.pwd.length ≤ sampleEnv.MAX_PATH ∧
    (mlfs_posix_chdir sampleEnv sampleState (some ['b'])).out = .ret (-ENOTDIR) ∧
    (mlfs_posix_chdir sampleEnv sampleState (some ['b'])).st = sampleState :=
  ⟨by decide, by decide,
    (chdir_contract sampleEnv sampleState ['b'] (by decide) (by decide)).2.2.2.1 2
      (by decide) (by decide)⟩

/-! ## Opening -/

theorem first_free_spec : ∀ (fs : List File) (i : Nat), first_free fs = some i →
    ∃ f, fs[i]? = some f ∧ f.ref = 0
  | [], i, h => by simp [first_free] at h
  | f :: fs, i, h => by
    unfold first_free at h
    by_cases hr : f.ref = 0
    · simp only [hr, if_true, Option.some.injEq] at h
      subst h
      exact ⟨f, by simp, hr⟩
    · simp only [hr, if_false, Option.map_eq_some'] at h
      obtain ⟨j, hj, rfl⟩ := h
      obtain ⟨g, hg, hg0⟩ := first_free_spec fs j hj
      exact ⟨g, by simpa using hg, hg0⟩

theorem mlfs_file_alloc_spec (st : State) (i : Nat) (st1 : State)
    (h : mlfs_file_alloc st = some (i, st1)) :
    ∃ f, st.open_files[i]? = some f ∧ f.ref = 0 ∧
      st1 = { st with open_files := st.open_files.set i { f with ref := 1, fd := i } } ∧
      st1.open_files[i]? = some { f with ref := 1, fd := i } := by
  unfold mlfs_file_alloc at h
  cases hff : first_free st.open_files with
  | none => simp [hff] at h
  | some j =>
    obtain ⟨f, hf, hf0⟩ := first_free_spec _ _ hff
    simp only [hff, hf, Option.some.injEq, Prod.mk.injEq] at h
    obtain ⟨rfl, rfl⟩ := h
    have hlt : j < st.open_files.length := (List.getElem?_eq_some_iff.mp hf).1
    exact ⟨f, hf, hf0, rfl, by simp [hlt]⟩

theorem or_directory_and (a c : Nat) (h : O_DIRECTORY &&& c = 0) :
    (a ||| (O_RDONLY ||| O_DIRECTORY)) &&& c = a &&& c := by
  have h0 : O_RDONLY ||| O_DIRECTORY = O_DIRECTORY := by decide
  rw [h0, Nat.and_comm, Nat.and_or_distrib_left, Nat.and_comm c O_DIRECTORY, h, Nat.or_zero,
    Nat.and_comm]

theorem or_directory_bit (a : Nat) : (a ||| (O_RDONLY ||| O_DIRECTORY)) &&& O_DIRECTORY ≠ 0 := by
  intro h
  have h1 : ((a ||| (O_RDONLY ||| O_DIRECTORY)) &&& O_DIRECTORY).testBit 16 = true := by
    rw [Nat.testBit_and, Nat.testBit_or]
    have h2 : Nat.testBit (O_RDONLY ||| O_DIRECTORY) 16 = true := by decide
    have h3 : Nat.testBit O_DIRECTORY 16 = true := by decide
    simp [h2, h3]
  rw [h] at h1
  simp at h1

theorem or_directory_ne_zero (a : Nat) : a ||| (O_RDONLY ||| O_DIRECTORY) ≠ 0 := by
  intro h
  have h1 := or_directory_bit a
  rw [h] at h1
  simp at h1

/-- The fields `mlfs_posix_open` leaves in the file object of slot `i`, for the
flags `fl` that reach lines 159-170. -/
theorem open_tail_spec (env : Env) (st : State) (inode : Nat) (fl : Nat) (tr : List Event)
    (i : Nat) (st1 : State) (hal : mlfs_file_alloc st = some (i, st1)) :
    (open_tail env st inode fl tr).out = .ret ((i : Int) + (env.g_fd_start : Int)) ∧
    (open_tail env st inode fl tr).trace = tr ++ [.mlfs_file_alloc (some i), .commit_log_tx] ∧
    ∃ f, (open_tail env st inode fl tr).st.open_files[i]? = some f ∧
      f.ip = some inode ∧ f.off = 0 ∧ f.ref = 1 ∧ f.fd = i ∧
      (f.readable = true ↔ fl &&& O_WRONLY = 0) ∧
      (f.writable = true ↔ (fl &&& O_WRONLY ≠ 0 ∨ fl &&& O_RDWR ≠ 0)) ∧
      (f.type = FdType.FD_DIR ↔ fl &&& O_DIRECTORY ≠ 0) ∧
      (f.type = FdType.FD_INODE ↔ fl &&& O_DIRECTORY = 0) := by
  obtain ⟨f0, hf0, _, hst1, hget⟩ := mlfs_file_alloc_spec st i st1 hal
  have hlt : i < st1.open_files.length := (List.getElem?_eq_some_iff.mp hget).1
  refine ⟨?_, ?_, ?_⟩
  · simp [open_tail, hal, hget]
  · simp [open_tail, hal, hget]
  · simp only [open_tail, hal, hget]
    have hg : ∀ x : File, (st1.open_files.set i x)[i]? = some x := by
      intro x
      simp [hlt]
    refine ⟨_, hg _, rfl, rfl, rfl, rfl, ?_, ?_, ?_, ?_⟩
    · simp
    · simp
    · by_cases hd : fl &&& O_DIRECTORY = 0 <;> simp [hd]
    · by_cases hd : fl &&& O_DIRECTORY = 0 <;> simp [hd]

/-- C2: `mlfs_posix_open` with `O_CREAT` and `O_EXCL` set and `O_DIRECTORY`
clear, when `mlfs_object_create` returns an inode for the path and reports that
the entry existed: the result is `-EEXIST`; the calls made are `start_log_tx`,
`mlfs_object_create`, `abort_log_tx` (no commit, no allocation of a file
object); the state (descriptor table and working directory) is what it was;
and the same call on the state afterwards gives the same result. -/
theorem open_creat_excl_existing (env : Env) (st : State) (ipath path : CStr)
    (flags mode inode : Nat)
    (hc : flags &&& O_CREAT ≠ 0) (he : flags &&& O_EXCL ≠ 0) (hd : flags &&& O_DIRECTORY = 0)
    (hp : open_path env st.pwd ipath = some path)
    (hex : env.mlfs_object_create path Itype.T_FILE = some (inode, true)) :
    (mlfs_posix_open env st (some ipath) flags mode).out = .ret (-EEXIST) ∧
    (mlfs_posix_open env st (some ipath) flags mode).trace =
      [.start_log_tx, .mlfs_object_create path Itype.T_FILE (some inode), .abort_log_tx] ∧
    logCalls (mlfs_posix_open env st (some ipath) flags mode).trace =
      [.start_log_tx, .abort_log_tx] ∧
    (mlfs_posix_open env st (some ipath) flags mode).st = st ∧
    mlfs_posix_open env (mlfs_posix_open env st (some ipath) flags mode).st (some ipath)
      flags mode = mlfs_posix_open env st (some ipath) flags mode := by
  have h : mlfs_posix_open env st (some ipath) flags mode =
      ⟨.ret (-EEXIST), st,
        [.start_log_tx, .mlfs_object_create path Itype.T_FILE (some inode),
          .abort_log_tx]⟩ := by
    simp [mlfs_posix_open, hp, hc, he, hd, hex]
  rw [h]
  refine ⟨rfl, rfl, ?_, rfl, h⟩
  simp [logCalls]

/-- Instance of `open_creat_excl_existing`: `open("b", O_CREAT|O_EXCL)` in
`sampleState`, where `/a/b` exists. -/
theorem open_creat_excl_existing_witness :
    (mlfs_posix_open sampleEnv sampleState (some ['b']) (O_CREAT ||| O_EXCL) 0).out =
      .ret (-EEXIST) ∧
    (mlfs_posix_open sampleEnv sampleState (some ['b']) (O_CREAT ||| O_EXCL) 0).st =
      sampleState :=
  have h := open_creat_excl_existing sampleEnv sampleState ['b'] ['/', 'a', '/', 'b']
    (O_CREAT ||| O_EXCL) 0 2 (by decide) (by decide) (by decide) (by decide) (by decide)
  ⟨h.1, h.2.2.2.1⟩

theorem open_tail_ne_eacces (env : Env) (st : State) (inode fl : Nat) (tr : List Event) :
    (open_tail env st inode fl tr).out ≠ .ret (-EACCES) := by
  unfold open_tail
  split
  · simp [ENOMEM, EACCES]
  · split
    · simp
    · simp only [ne_eq, Outcome.ret.injEq]
      unfold EACCES
      omega

theorem open_eq_tail_create (env : Env) (st : State) (ipath path : CStr)
    (flags mode inode : Nat) (exist : Bool)
    (hp : open_path env st.pwd ipath = some path)
    (hc : flags &&& O_CREAT ≠ 0) (hd : flags &&& O_DIRECTORY = 0)
    (hex : env.mlfs_object_create path Itype.T_FILE = some (inode, exist))
    (hx : ¬ (flags &&& O_EXCL ≠ 0 ∧ exist = true)) :
    mlfs_posix_open env st (some ipath) flags mode =
      open_tail env st inode flags
        [.start_log_tx, .mlfs_object_create path Itype.T_FILE (some inode)] := by
  unfold mlfs_posix_open
  simp only [hp, hex]
  rw [if_pos hc, if_neg (not_not.mpr hd), if_neg hx]

theorem open_eq_tail_dir (env : Env) (st : State) (ipath path : CStr)
    (flags mode inode : Nat)
    (hp : open_path env st.pwd ipath = some path)
    (hc : flags &&& O_CREAT = 0) (hn : env.namei path = some inode)
    (ht : (env.inodes inode).itype = Itype.T_DIR) :
    mlfs_posix_open env st (some ipath) flags mode =
      open_tail env st inode (flags ||| (O_RDONLY ||| O_DIRECTORY))
        [.start_log_tx, .namei path (some inode)] := by
  unfold mlfs_posix_open
  simp only [hp, hn]
  rw [if_neg (not_not.mpr hc), if_pos ht, if_neg (or_directory_ne_zero flags)]

theorem open_eq_tail_file (env : Env) (st : State) (ipath path : CStr)
    (flags mode inode : Nat)
    (hp : open_path env st.pwd ipath = some path)
    (hc : flags &&& O_CREAT = 0) (hn : env.namei path = some inode)
    (ht : (env.inodes inode).itype ≠ Itype.T_DIR) :
    mlfs_posix_open env st (some ipath) flags mode =
      open_tail env st inode flags [.start_log_tx, .namei path (some inode)] := by
  unfold mlfs_posix_open
  simp only [hp, hn]
  rw [if_neg (not_not.mpr hc), if_neg ht]

/-- C10: on every call of `mlfs_posix_open` that obtains an inode (from
`mlfs_object_create` when `O_CREAT` is set, from `namei` otherwise) and
allocates slot `i`: the return value is `i + g_fd_start`; the file object of
slot `i` holds the inode, offset 0, `readable` iff `O_WRONLY` is clear,
`writable` iff `O_WRONLY` or `O_RDWR` is set, type `FD_DIR` iff `O_DIRECTORY`
was passed or (`O_CREAT` is clear and the inode is a directory), and type
`FD_INODE` otherwise. And no call of `mlfs_posix_open` returns `-EACCES`. -/
theorem open_success_fields (env : Env) (st : State) (flags mode : Nat) :
    (∀ (ipath path : CStr) (inode i : Nat) (st1 : State),
      open_path env st.pwd ipath = some path →
      ((flags &&& O_CREAT ≠ 0 ∧ flags &&& O_DIRECTORY = 0 ∧
          ∃ exist, env.mlfs_object_create path Itype.T_FILE = some (inode, exist) ∧
            ¬ (flags &&& O_EXCL ≠ 0 ∧ exist = true)) ∨
        (flags &&& O_CREAT = 0 ∧ env.namei path = some inode)) →
      mlfs_file_alloc st = some (i, st1) →
      (mlfs_posix_open env st (some ipath) flags mode).out =
        .ret ((i : Int) + (env.g_fd_start : Int)) ∧
      ∃ f, (mlfs_posix_open env st (some ipath) flags mode).st.open_files[i]? = some f ∧
        f.ip = some inode ∧ f.off = 0 ∧
        (f.readable = true ↔ flags &&& O_WRONLY = 0) ∧
        (f.writable = true ↔ (flags &&& O_WRONLY ≠ 0 ∨ flags &&& O_RDWR ≠ 0)) ∧
        (f.type = FdType.FD_DIR ↔ (flags &&& O_DIRECTORY ≠ 0 ∨
          (flags &&& O_CREAT = 0 ∧ (env.inodes inode).itype = Itype.T_DIR))) ∧
        (f.type ≠ FdType.FD_DIR → f.type = FdType.FD_INODE)) ∧
    (∀ input_path : Option CStr,
      (mlfs_posix_open env st input_path flags mode).out ≠ .ret (-EACCES)) := by
  constructor
  · intro ipath path inode i st1 hp hin hal
    rcases hin with ⟨hc, hd, exist, hex, hne⟩ | ⟨hc, hn⟩
    · obtain ⟨ho, _, f, hf, hip, hoff, _, _, hr, hw, hdir, hino⟩ :=
        open_tail_spec env st inode flags
          [.start_log_tx, .mlfs_object_create path Itype.T_FILE (some inode)] i st1 hal
      rw [open_eq_tail_create env st ipath path flags mode inode exist hp hc hd hex hne]
      refine ⟨ho, f, hf, hip, hoff, hr, hw, ?_, ?_⟩
      · rw [hdir]
        constructor
        · intro h
          exact Or.inl h
        · rintro (h | ⟨h, _⟩)
          · exact h
          · exact absurd h hc
      · intro h
        rw [hino]
        by_contra h2
        exact h (hdir.mpr h2)
    · by_cases ht : (env.inodes inode).itype = Itype.T_DIR
      · obtain ⟨ho, _, f, hf, hip, hoff, _, _, hr, hw, hdir, hino⟩ :=
          open_tail_spec env st inode (flags ||| (O_RDONLY ||| O_DIRECTORY))
            [.start_log_tx, .namei path (some inode)] i st1 hal
        rw [open_eq_tail_dir env st ipath path flags mode inode hp hc hn ht]
        rw [or_directory_and flags O_WRONLY (by decide)] at hr hw
        rw [or_directory_and flags O_RDWR (by decide)] at hw
        refine ⟨ho, f, hf, hip, hoff, hr, hw, ?_, ?_⟩
        · constructor
          · intro _
            exact Or.inr ⟨hc, ht⟩
          · intro _
            exact hdir.mpr (or_directory_bit flags)
        · intro h
          exact absurd (hdir.mpr (or_directory_bit flags)) h
      · obtain ⟨ho, _, f, hf, hip, hoff, _, _, hr, hw, hdir, hino⟩ :=
          open_tail_spec env st inode flags
            [.start_log_tx, .namei path (some inode)] i st1 hal
        rw [open_eq_tail_file env st ipath path flags mode inode hp hc hn ht]
        refine ⟨ho, f, hf, hip, hoff, hr, hw, ?_, ?_⟩
        · rw [hdir]
          constructor
          · intro h
            exact Or.inl h
          · rintro (h | ⟨_, h⟩)
            · exact h
            · exact absurd h ht
        · intro h
          rw [hino]
          by_contra h2
          exact h (hdir.mpr h2)
  · intro input_path
    have e1 : ¬ (-ENOENT = -EACCES) := by decide
    have e2 : ¬ (-EEXIST = -EACCES) := by decide
    cases input_path with
    | none => simp [mlfs_posix_open, e1]
    | some ipath =>
      cases hp : open_path env st.pwd ipath with
      | none => simp [mlfs_posix_open, hp]
      | some path =>
        by_cases hc : flags &&& O_CREAT = 0
        · cases hn : env.namei path with
          | none => simp [mlfs_posix_open, hp, hc, hn, e1]
          | some inode =>
            by_cases ht : (env.inodes inode).itype = Itype.T_DIR
            · rw [open_eq_tail_dir env st ipath path flags mode inode hp hc hn ht]
              exact open_tail_ne_eacces _ _ _ _ _
            · rw [open_eq_tail_file env st ipath path flags mode inode hp hc hn ht]
              exact open_tail_ne_eacces _ _ _ _ _
        · by_cases hd : flags &&& O_DIRECTORY = 0
          · cases hex : env.mlfs_object_create path Itype.T_FILE with
            | none => simp [mlfs_posix_open, hp, hc, hd, hex, e1]
            | some x =>
              obtain ⟨inode, exist⟩ := x
              by_cases hx : flags &&& O_EXCL ≠ 0 ∧ exist = true
              · simp [mlfs_posix_open, hp, hc, hd, hex, hx, e2]
              · rw [open_eq_tail_create env st ipath path flags mode inode exist hp hc hd
                  hex hx]
                exact open_tail_ne_eacces _ _ _ _ _
          · simp [mlfs_posix_open, hp, hc, hd]

/-- Instance of `open_success_fields`: `open("/a/", O_RDONLY)` in `sampleState`
resolves the directory inode 1, allocates slot 1 and returns 1 + 1000. -/
theorem open_success_fields_witness :
    open_path sampleEnv sampleState.pwd ['/', 'a', '/'] = some ['/', 'a', '/'] ∧
    sampleEnv.namei ['/', 'a', '/'] = some 1 ∧
    (mlfs_posix_open sampleEnv sampleState (some ['/', 'a', '/']) O_RDONLY 0).out =
      .ret 1001 ∧
    (mlfs_posix_open sampleEnv sampleState (some ['/', 'a', '/']) O_RDONLY
        0).st.open_files[1]? =
      some { type := FdType.FD_DIR, fd := 1, ref := 1, readable := true, writable := false,
             ip := some 1, off := 0 } :=
  have h := (open_success_fields sampleEnv sampleState O_RDONLY 0).1 ['/', 'a', '/']
    ['/', 'a', '/'] 1 1
    { sampleState with open_files := [sampleFile, { freeFile with ref := 1, fd := 1 }] }
    (by decide) (Or.inr ⟨by decide, by decide⟩) (by decide)
  ⟨by decide, by decide, h.1, by decide⟩

/-! ## Paths handed to the Inode Handle Layer -/

/-- C6: in `sampleState` the working directory is `/a/`. For the relative path
`b`, `mlfs_posix_open` hands `/a/b` to the Inode Handle Layer, and
`mlfs_posix_mkdir`, `mlfs_posix_stat`, `mlfs_posix_unlink`, `mlfs_posix_access`
and `mlfs_posix_truncate` hand it `b`, the argument as it came. -/
theorem relative_path_only_open_resolves :
    sampleState.pwd = ['/', 'a', '/'] ∧
    resolvedPaths (mlfs_posix_open sampleEnv sampleState (some ['b']) O_RDONLY 0).trace =
      [['/', 'a', '/', 'b']] ∧
    resolvedPaths (mlfs_posix_mkdir sampleEnv sampleState ['b'] 0).trace = [['b']] ∧
    resolvedPaths (mlfs_posix_stat sampleEnv sampleState ['b']).trace = [['b']] ∧
    resolvedPaths (mlfs_posix_unlink sampleEnv sampleState ['b']).trace = [['b']] ∧
    resolvedPaths (mlfs_posix_access sampleEnv sampleState ['b'] F_OK).trace = [['b']] ∧
    resolvedPaths (mlfs_posix_truncate sampleEnv sampleState ['b'] 0).trace = [['b']] ∧
    (mlfs_posix_open sampleEnv sampleState (some ['b']) O_RDONLY 0).out = .ret 1001 ∧
    (mlfs_posix_stat sampleEnv sampleState ['b']).out = .ret (-ENOENT) := by
  decide

/-! ## References to inodes -/

/-- C7: in `sampleEnv`, `mlfs_posix_stat("/f")` returns 0 and ends with a net
change of +1 on the reference count of the inode `namei` returned (no `iput`),
where `mlfs_posix_access("/f")` ends with 0. The same +1 is left by
`mlfs_posix_chdir("/a/")`, by `mlfs_posix_mkdir("/a/")`, by
`mlfs_posix_open("/f", O_CREAT|O_EXCL)` and, on the parent directory, by
`mlfs_posix_unlink("/a/c")` when the lookup of the leaf fails. -/
theorem stat_leaves_reference :
    (mlfs_posix_stat sampleEnv sampleState ['/', 'f']).out = .ret 0 ∧
    refDelta 3 (mlfs_posix_stat sampleEnv sampleState ['/', 'f']).trace = 1 ∧
    refDelta 3 (mlfs_posix_access sampleEnv sampleState ['/', 'f'] F_OK).trace = 0 ∧
    refDelta 1 (mlfs_posix_chdir sampleEnv sampleState (some ['/', 'a', '/'])).trace = 1 ∧
    refDelta 1 (mlfs_posix_mkdir sampleEnv sampleState ['/', 'a', '/'] 0).trace = 1 ∧
    refDelta 3 (mlfs_posix_open sampleEnv sampleState (some ['/', 'f'])
      (O_CREAT ||| O_EXCL) 0).trace = 1 ∧
    (mlfs_posix_unlink sampleEnv sampleState ['/', 'a', '/', 'c']).out = .ret (-ENOENT) ∧
    refDelta 1 (mlfs_posix_unlink sampleEnv sampleState ['/', 'a', '/', 'c']).trace = 1 := by
  decide

/-! ## Log transactions and error returns -/

theorem logCalls_append (a b : List Event) : logCalls (a ++ b) = logCalls a ++ logCalls b := by
  simp [logCalls]

theorem open_tail_aborts (env : Env) (st : State) (inode fl : Nat) (tr : List Event)
    (htr : logCalls tr = [.start_log_tx]) : AbortsOnError (open_tail env st inode fl tr) := by
  intro v hv hneg _
  unfold open_tail at hv ⊢
  cases hal : mlfs_file_alloc st with
  | none =>
    simp only
    rw [logCalls_append, htr]
    simp [logCalls]
  | some x =>
    obtain ⟨i, st1⟩ := x
    simp only [hal] at hv
    cases hg : st1.open_files[i]? with
    | none => simp [hg] at hv
    | some f =>
      simp only [hg, Outcome.ret.injEq] at hv
      omega

/-- C8, the claim as stated fails: `mlfs_posix_mkdir` on the existing `/a/`
returns the negative code `-EEXIST` after `start_log_tx`, and the log calls it
made are `start_log_tx`, `commit_log_tx`. -/
theorem mkdir_existing_commits_then_fails :
    (mlfs_posix_mkdir sampleEnv sampleState ['/', 'a', '/'] 0).out = .ret (-EEXIST) ∧
    logCalls (mlfs_posix_mkdir sampleEnv sampleState ['/', 'a', '/'] 0).trace =
      [.start_log_tx, .commit_log_tx] ∧
    ¬ AbortsOnError (mlfs_posix_mkdir sampleEnv sampleState ['/', 'a', '/'] 0) := by
  refine ⟨by decide, by decide, ?_⟩
  intro h
  have h1 := h (-EEXIST) (by decide) (by decide) (by decide)
  revert h1
  decide

/-- C8 as amended: in `mlfs_posix_open`, `mlfs_posix_truncate`,
`mlfs_posix_ftruncate` and `mlfs_posix_rename`, every call that returns a
negative value after `start_log_tx` ended the transaction by `abort_log_tx`
and did not commit. `mlfs_posix_mkdir` and `mlfs_posix_unlink` do the same,
with one exception each, in which the transaction is committed before the
negative value is returned: `mlfs_posix_mkdir` returning `-EEXIST` because
`mlfs_object_create` reported that the entry existed, and `mlfs_posix_unlink`
returning the result of `idealloc`. -/
theorem error_after_start_aborts_or_designed_commit (env : Env) (st : State) :
    (∀ input_path flags mode, AbortsOnError (mlfs_posix_open env st input_path flags mode)) ∧
    (∀ filename length, AbortsOnError (mlfs_posix_truncate env st filename length)) ∧
    (∀ fd length, AbortsOnError (mlfs_posix_ftruncate env st fd length)) ∧
    (∀ oldpath newpath, AbortsOnError (mlfs_posix_rename env st oldpath newpath)) ∧
    (∀ path mode v, (mlfs_posix_mkdir env st path mode).out = .ret v → v < 0 →
      logCalls (mlfs_posix_mkdir env st path mode).trace = [.start_log_tx, .abort_log_tx] ∨
      (v = -EEXIST ∧ (∃ inode, env.mlfs_object_create path Itype.T_DIR = some (inode, true)) ∧
        logCalls (mlfs_posix_mkdir env st path mode).trace =
          [.start_log_tx, .commit_log_tx])) ∧
    (∀ filename v, (mlfs_posix_unlink env st filename).out = .ret v → v < 0 →
      Event.start_log_tx ∈ (mlfs_posix_unlink env st filename).trace →
      logCalls (mlfs_posix_unlink env st filename).trace = [.start_log_tx, .abort_log_tx] ∨
      ((∃ inode, v = env.idealloc inode ∧
          Event.idealloc inode ∈ (mlfs_posix_unlink env st filename).trace) ∧
        logCalls (mlfs_posix_unlink env st filename).trace =
          [.start_log_tx, .commit_log_tx])) := by
  refine ⟨?_, ?_, ?_, ?_, ?_, ?_⟩
  · intro input_path flags mode
    cases input_path with
    | none =>
      intro v _ _ hs
      simp [mlfs_posix_open] at hs
    | some ipath =>
      cases hp : open_path env st.pwd ipath with
      | none =>
        intro v hv
        simp [mlfs_posix_open, hp] at hv
      | some path =>
        by_cases hc : flags &&& O_CREAT = 0
        · cases hn : env.namei path with
          | none =>
            intro v _ _ _
            simp [mlfs_posix_open, hp, hc, hn, logCalls]
          | some inode =>
            by_cases ht : (env.inodes inode).itype = Itype.T_DIR
            · rw [open_eq_tail_dir env st ipath path flags mode inode hp hc hn ht]
              exact open_tail_aborts _ _ _ _ _ (by simp [logCalls])
            · rw [open_eq_tail_file env st ipath path flags mode inode hp hc hn ht]
              exact open_tail_aborts _ _ _ _ _ (by simp [logCalls])
        · by_cases hd : flags &&& O_DIRECTORY = 0
          · cases hex : env.mlfs_object_create path Itype.T_FILE with
            | none =>
              intro v _ _ _
              simp [mlfs_posix_open, hp, hc, hd, hex, logCalls]
            | some x =>
              obtain ⟨inode, exist⟩ := x
              by_cases hx : flags &&& O_EXCL ≠ 0 ∧ exist = true
              · intro v _ _ _
                simp [mlfs_posix_open, hp, hc, hd, hex, hx, logCalls]
              · rw [open_eq_tail_create env st ipath path flags mode inode exist hp hc hd
                  hex hx]
                exact open_tail_aborts _ _ _ _ _ (by simp [logCalls])
          · intro v hv
            simp [mlfs_posix_open, hp, hc, hd] at hv
  · intro filename length v hv hneg hs
    unfold mlfs_posix_truncate at hv hs
    cases hn : env.namei filename with
    | none => simp [hn] at hs
    | some inode =>
      simp only [hn, Outcome.ret.injEq] at hv
      omega
  · intro fd length v hv hneg hs
    unfold mlfs_posix_ftruncate at hv hs
    cases hf : get_file st fd with
    | none => simp [hf] at hv
    | some f =>
      by_cases hr : f.ref = 0
      · simp [hf, hr] at hs
      · cases hip : f.ip with
        | none => simp [hf, hr, hip] at hv
        | some ip =>
          simp only [hf, hr, hip, if_false, Outcome.ret.injEq] at hv
          omega
  · intro oldpath newpath v hv hneg _
    unfold mlfs_posix_rename at hv ⊢
    cases ho : env.nameiparent oldpath with
    | none => simp [ho] at hv
    | some o =>
      cases hn : env.nameiparent newpath with
      | none => simp [ho, hn] at hv
      | some n =>
        obtain ⟨od, oname⟩ := o
        obtain ⟨nd, nname⟩ := n
        simp only [ho, hn] at hv ⊢
        by_cases hdn : od ≠ nd
        · simp [hdn] at hv
        · by_cases hlen : ¬ (oname.length ≤ env.DIRSIZ ∧ nname.length ≤ env.DIRSIZ)
          · rw [if_neg hdn, if_pos hlen] at hv
            simp at hv
          · rw [if_neg hdn, if_neg hlen] at hv ⊢
            by_cases hret : env.dir_change_entry od oname nname < 0
            · rw [if_pos hret]
              simp [logCalls]
            · rw [if_neg hret] at hv
              simp only [Outcome.ret.injEq] at hv
              omega
  · intro path mode v hv hneg
    unfold mlfs_posix_mkdir at hv ⊢
    cases hex : env.mlfs_object_create path Itype.T_DIR with
    | none =>
      left
      simp [logCalls]
    | some x =>
      obtain ⟨inode, exist⟩ := x
      simp only [hex] at hv ⊢
      by_cases hx : exist = true
      · right
        rw [if_pos hx] at hv ⊢
        simp only [Outcome.ret.injEq] at hv
        refine ⟨hv.symm, ⟨inode, by rw [hx]⟩, ?_⟩
        simp [logCalls]
      · rw [if_neg hx] at hv
        simp only [Outcome.ret.injEq] at hv
        omega
  · intro filename v hv hneg hs
    unfold mlfs_posix_unlink at hv hs ⊢
    cases hp : env.nameiparent filename with
    | none => simp [hp] at hs
    | some x =>
      obtain ⟨dir, name⟩ := x
      simp only [hp] at hv hs ⊢
      cases hl : env.dir_lookup dir name with
      | none => simp [hl] at hs
      | some inode =>
        simp only [hl] at hv ⊢
        by_cases hret : env.dir_remove_entry dir name (env.inodes inode).inum < 0
        · left
          rw [if_pos hret]
          simp [logCalls]
        · right
          rw [if_neg hret] at hv ⊢
          simp only [Outcome.ret.injEq] at hv
          refine ⟨⟨inode, hv.symm, by simp⟩, ?_⟩
          simp [logCalls]

/-- Instance of `error_after_start_aborts_or_designed_commit`: in `sampleEnv`,
`open("/z", O_RDONLY)` fails to resolve, returns `-ENOENT` after
`start_log_tx`, and its log calls are `start_log_tx`, `abort_log_tx`. -/
theorem error_after_start_aborts_or_designed_commit_witness :
    (mlfs_posix_open sampleEnv sampleState (some ['/', 'z']) O_RDONLY 0).out =
      .ret (-ENOENT) ∧
    logCalls (mlfs_posix_open sampleEnv sampleState (some ['/', 'z']) O_RDONLY 0).trace =
      [.start_log_tx, .abort_log_tx] :=
  ⟨by decide,
    (error_after_start_aborts_or_designed_commit sampleEnv sampleState).1
      (some ['/', 'z']) O_RDONLY 0 (-ENOENT) (by decide) (by decide) (by decide)⟩

end PosixInterface
